import Mathlib

/-!
Shallow embedding of `src/main.py` (Markdown link-checker CLI).

The program reads a Markdown file, extracts all absolute http/https URLs with
the regular expression `https?://[^\s)\]]+`, deduplicates and sorts them, and
probes each one with a HEAD request on a thread pool, classifying the result
and accumulating a good/bad/error summary.

The network is abstracted by a `NetBehavior` value describing what the single
`requests.head` call in `check_url_status` does: return a response, raise
`requests.Timeout`, raise a `requests.RequestException`, or raise any other
exception (an unexpected internal fault). Exceptions that escape a function
are modelled with `Except.error`.
-/

/-- What the abstracted `requests.head(url, timeout=...)` call does on one
invocation: a final response (after redirects) with a status code and reason,
a `requests.Timeout`, another `requests.RequestException` carrying `str(e)`,
or any exception outside the `requests` hierarchy (an internal fault). -/
inductive NetBehavior where
  | resp (code : Nat) (reason : String)
  | timeout
  | reqError (msg : String)
  | fault (msg : String)
deriving DecidableEq

/-- The tuple `(url, status_code, status_text)` returned by
`check_url_status` (main.py line 78). -/
abbrev Outcome := String × Nat × String

/-- Embedding of `check_url_status` (main.py lines 58-78).  `Except.error`
models an exception propagating out of the function: the code catches only
`requests.Timeout` and `requests.RequestException`, so a `fault` escapes.
`String.mk (msg.data.take 50)` models the slice `str(e)[:50]`. -/
def check_url_status (url : String) (timeout : Nat) (net : NetBehavior) :
    Except String Outcome :=
  match net with
  | .resp code reason =>
      .ok (url, code, if 200 ≤ code ∧ code < 300 then reason else "Client/Server Error")
  | .timeout => .ok (url, 408, "Timeout")
  | .reqError msg =>
      .ok (url, 0, "Connection Error: " ++ String.mk (msg.data.take 50) ++ "...")
  | .fault msg => .error msg

/-- The `summary` dictionary of `main` (main.py lines 117-121). -/
structure Summary where
  good : Nat
  bad : Nat
  error : Nat
deriving DecidableEq

/-- Sum of the three buckets of a `Summary`. -/
def Summary.total (s : Summary) : Nat := s.good + s.bad + s.error

/-- One iteration of the `as_completed` consumption loop (main.py lines
129-145): `future.result()` either returns an outcome tuple — bucketed by its
status code (2xx → good, positive non-2xx → bad, 0 → error) — or raises,
which the `except Exception` arm records in the error bucket. -/
def consume_result (s : Summary) (r : Except String Outcome) : Summary :=
  match r with
  | .ok (_, code, _) =>
      if 200 ≤ code ∧ code < 300 then { s with good := s.good + 1 }
      else if 0 < code then { s with bad := s.bad + 1 }
      else { s with error := s.error + 1 }
  | .error _ => { s with error := s.error + 1 }

/-- Folding the consumption loop over a completion-ordered list of task
results, starting from the zeroed `summary` dictionary. -/
def run_summary (rs : List (Except String Outcome)) : Summary :=
  rs.foldl consume_result ⟨0, 0, 0⟩

/-- The task results of one run: `check_url_status` applied to every URL, the
network behavior of each call given by `net` (main.py line 126 submits one
task per URL). -/
def probe_all (urls : List String) (timeout : Nat)
    (net : String → Nat → NetBehavior) : List (Except String Outcome) :=
  urls.map fun u => check_url_status u timeout (net u timeout)

/-! ### URL extraction

`extract_urls_from_file` (main.py lines 38-56) reads the file, applies
`re.findall` with pattern `https?://[^\s)\]]+`, and returns
`sorted(list(set(urls)))`.  The scan below reproduces `findall`: at each
position try to match the pattern (greedy, anchored there); on a match, emit
it and resume after it; otherwise advance one character. -/

/-- Python's `\s` character class, modelled over its ASCII members
(space, tab, newline, vertical tab, form feed, carriage return). -/
def isPySpace (c : Char) : Bool :=
  c == ' ' || c == '\t' || c == '\n' || c == '\x0b' || c == '\x0c' || c == '\r'

/-- A character matched by `[^\s)\]]`: not whitespace, not `)`, not `]`. -/
def urlCharOk (c : Char) : Bool :=
  !(isPySpace c || c == ')' || c == ']')

/-- The characters of the literal part `http://` of the pattern. -/
def httpPre : List Char := ['h', 't', 't', 'p', ':', '/', '/']

/-- The characters of the literal part `https://` of the pattern. -/
def httpsPre : List Char := ['h', 't', 't', 'p', 's', ':', '/', '/']

/-- Try to match `https?://[^\s)\]]+` at the head of `l`.  On success returns
the matched characters and the unconsumed remainder.  `https?` is greedy, but
`http://` and `https://` are mutually exclusive as heads (5th character `:`
vs `s`), so testing `https://` first is equivalent. -/
def matchHttpAt (l : List Char) : Option (List Char × List Char) :=
  if l.take 8 = httpsPre then
    let body := (l.drop 8).takeWhile urlCharOk
    if body = [] then none else some (httpsPre ++ body, (l.drop 8).drop body.length)
  else if l.take 7 = httpPre then
    let body := (l.drop 7).takeWhile urlCharOk
    if body = [] then none else some (httpPre ++ body, (l.drop 7).drop body.length)
  else none

/-- Left-to-right non-overlapping scan of `re.findall`, fuelled for
structural recursion; each step consumes at least one character, so fuel
`l.length` is enough (`findallFuel_fuel_irrelevant` below). -/
def findallFuel : Nat → List Char → List (List Char)
  | 0, _ => []
  | _ + 1, [] => []
  | fuel + 1, c :: rest =>
    match matchHttpAt (c :: rest) with
    | some (m, rest₂) => m :: findallFuel fuel rest₂
    | none => findallFuel fuel rest

/-- All matches of `https?://[^\s)\]]+` in `l`, leftmost first. -/
def findall (l : List Char) : List (List Char) :=
  findallFuel l.length l

/-- Insertion into a strictly sorted list, dropping duplicates.  Folding it
over the match list below produces the strictly ascending list of the
distinct matches, which is exactly what `sorted(list(set(urls)))` returns
(Python string order is lexicographic on code points, as is `<` on
`String`). -/
def insertSorted (s : String) : List String → List String
  | [] => [s]
  | t :: ts =>
    if s < t then s :: t :: ts
    else if s = t then t :: ts
    else t :: insertSorted s ts

/-- `sorted(list(set(l)))`: the strictly ascending enumeration of the
distinct elements of `l`. -/
def dedupSort (l : List String) : List String :=
  l.foldr insertSorted []

/-- The pure part of `extract_urls_from_file` (main.py lines 47-50): find all
pattern matches in the file content and return the sorted unique list. -/
def extract_urls (content : String) : List String :=
  dedupSort ((findall content.data).map fun m => String.mk m)

/-! ### The run control flow of `main` (main.py lines 93-153) -/

/-- How a run ends, as observed by the user: `readError` is the
`except` arms of `extract_urls_from_file` printing and calling
`sys.exit(1)`; `noUrls` is the `sys.exit(0)` of main.py line 113; `crashed`
is an uncaught exception (in particular the `ValueError` that
`ThreadPoolExecutor` raises for `max_workers <= 0`); `completed` carries the
delivered task results and the final summary. -/
inductive RunOutcome where
  | readError (msg : String)
  | noUrls
  | crashed (msg : String)
  | completed (rs : List (Except String Outcome)) (summary : Summary)

/-- Embedding of `main` after argument parsing: `read` is the result of
opening and reading the file (`Except.error` = `FileNotFoundError` or any
other I/O exception), `workers` the parsed `-w` value (argparse `type=int`
performs no positivity check).  `ThreadPoolExecutor(max_workers=workers)`
raises `ValueError` when `workers <= 0`, which nothing catches.  The
consumption order of `as_completed` is arbitrary; the completed results are
folded here in input order, and the order-insensitivity of the tally is
proved separately over all permutations. -/
def runChecker (read : Except String String) (workers : Int) (timeout : Nat)
    (net : String → Nat → NetBehavior) : RunOutcome :=
  match read with
  | .error msg => .readError msg
  | .ok content =>
    let urls := extract_urls content
    if urls = [] then .noUrls
    else if workers ≤ 0 then .crashed "max_workers must be greater than 0"
    else
      let rs := probe_all urls timeout net
      .completed rs (run_summary rs)

/-- The process exit status a `RunOutcome` produces: `sys.exit(1)` on a read
error, `sys.exit(0)` on no URLs, 1 for an uncaught exception, 0 for a normal
completion. -/
def exitCode : RunOutcome → Nat
  | .readError _ => 1
  | .noUrls => 0
  | .crashed _ => 1
  | .completed _ _ => 0

/-- The task results delivered to the printing sink during a run: none
unless the run reaches the consumption loop. -/
def deliveredResults : RunOutcome → List (Except String Outcome)
  | .completed rs _ => rs
  | _ => []

/-- `True` iff the prober returned normally with an outcome tuple whose first
component is the probed URL. -/
def returnsOutcomeFor (url : String) (r : Except String Outcome) : Bool :=
  match r with
  | .ok (u, _, _) => u == url
  | .error _ => false

/-- `True` iff the character list begins with the literal characters of
`http://` or `https://`. -/
def startsWithHttp (m : List Char) : Bool :=
  m.take 7 == httpPre || m.take 8 == httpsPre

/-! ### Lemmas about the consumption loop -/

/-- Each consumed task result adds exactly one to the bucket total. -/
theorem consume_result_total (s : Summary) (r : Except String Outcome) :
    (consume_result s r).total = s.total + 1 := by
  cases r with
  | ok o =>
    obtain ⟨u, code, reason⟩ := o
    simp only [consume_result, Summary.total]
    split_ifs <;> simp <;> omega
  | error m =>
    simp only [consume_result, Summary.total]
    omega

/-- Folding the consumption loop adds the number of consumed results to the
bucket total. -/
theorem foldl_consume_total (rs : List (Except String Outcome)) (s : Summary) :
    (rs.foldl consume_result s).total = s.total + rs.length := by
  induction rs generalizing s with
  | nil => simp
  | cons r rs ih =>
    simp only [List.foldl_cons, List.length_cons, ih, consume_result_total]
    omega

/-! ### Lemmas about `dedupSort` -/

theorem mem_insertSorted (a s : String) :
    ∀ ts, a ∈ insertSorted s ts ↔ a = s ∨ a ∈ ts := by
  intro ts
  induction ts with
  | nil => simp [insertSorted]
  | cons t ts ih =>
    simp only [insertSorted]
    split_ifs with h1 h2
    · simp
    · subst h2; simp only [List.mem_cons]; tauto
    · simp only [List.mem_cons, ih]; tauto

theorem pairwise_insertSorted (s : String) :
    ∀ ts, ts.Pairwise (· < ·) → (insertSorted s ts).Pairwise (· < ·) := by
  intro ts
  induction ts with
  | nil => simp [insertSorted]
  | cons t ts ih =>
    intro hp
    rw [List.pairwise_cons] at hp
    obtain ⟨ht, hts⟩ := hp
    simp only [insertSorted]
    split_ifs with h1 h2
    · refine List.pairwise_cons.mpr ⟨?_, List.pairwise_cons.mpr ⟨ht, hts⟩⟩
      intro x hx
      rcases List.mem_cons.mp hx with rfl | hx
      · exact h1
      · exact lt_trans h1 (ht x hx)
    · exact List.pairwise_cons.mpr ⟨ht, hts⟩
    · refine List.pairwise_cons.mpr ⟨?_, ih hts⟩
      intro x hx
      rcases (mem_insertSorted x s ts).mp hx with rfl | hx
      · exact lt_of_le_of_ne (le_of_not_lt h1) (Ne.symm h2)
      · exact ht x hx

/-- `dedupSort` always returns a strictly ascending list. -/
theorem pairwise_dedupSort (l : List String) :
    (dedupSort l).Pairwise (· < ·) := by
  induction l with
  | nil => simp [dedupSort]
  | cons x xs ih => exact pairwise_insertSorted x _ ih

/-- Every element of `dedupSort l` is an element of `l`. -/
theorem mem_dedupSort (a : String) :
    ∀ l, a ∈ dedupSort l → a ∈ l := by
  intro l
  induction l with
  | nil => simp [dedupSort]
  | cons x xs ih =>
    intro h
    rcases (mem_insertSorted a x (dedupSort xs)).mp h with rfl | h
    · exact List.mem_cons_self _ _
    · exact List.mem_cons_of_mem _ (ih h)

/-! ### Lemmas about the `findall` scan -/

theorem takeWhile_length_le {α : Type} (p : α → Bool) :
    ∀ l : List α, (l.takeWhile p).length ≤ l.length := by
  intro l
  induction l with
  | nil => simp
  | cons a l ih =>
    rw [List.takeWhile_cons]
    split
    · simpa using ih
    · simp

/-- Anatomy of a successful pattern match: a nonempty maximal run of URL
characters after a literal `http://` or `https://` head. -/
theorem matchHttpAt_cases {l m r : List Char} (h : matchHttpAt l = some (m, r)) :
    (∃ body, body ≠ [] ∧ body = (l.drop 8).takeWhile urlCharOk ∧
      m = httpsPre ++ body ∧ r = (l.drop 8).drop body.length) ∨
    (∃ body, body ≠ [] ∧ body = (l.drop 7).takeWhile urlCharOk ∧
      m = httpPre ++ body ∧ r = (l.drop 7).drop body.length) := by
  simp only [matchHttpAt] at h
  split_ifs at h
  · rw [Option.some.injEq, Prod.mk.injEq] at h
    obtain ⟨rfl, rfl⟩ := h
    exact Or.inl ⟨_, by assumption, rfl, rfl, rfl⟩
  · rw [Option.some.injEq, Prod.mk.injEq] at h
    obtain ⟨rfl, rfl⟩ := h
    exact Or.inr ⟨_, by assumption, rfl, rfl, rfl⟩

/-- A successful match strictly shrinks the remainder of the scan. -/
theorem matchHttpAt_rest_lt {l m r : List Char} (h : matchHttpAt l = some (m, r)) :
    r.length < l.length := by
  rcases matchHttpAt_cases h with ⟨body, hne, hbody, hm, hr⟩ | ⟨body, hne, hbody, hm, hr⟩
  · have h1 : body.length ≤ (l.drop 8).length := hbody ▸ takeWhile_length_le _ _
    have h2 : 0 < body.length := List.length_pos.mpr hne
    have h3 : r.length = (l.drop 8).length - body.length := by
      rw [hr, List.length_drop]
    have h4 : (l.drop 8).length = l.length - 8 := List.length_drop ..
    omega
  · have h1 : body.length ≤ (l.drop 7).length := hbody ▸ takeWhile_length_le _ _
    have h2 : 0 < body.length := List.length_pos.mpr hne
    have h3 : r.length = (l.drop 7).length - body.length := by
      rw [hr, List.length_drop]
    have h4 : (l.drop 7).length = l.length - 7 := List.length_drop ..
    omega

theorem takeWhile_all {α : Type} (p : α → Bool) :
    ∀ l : List α, (l.takeWhile p).all p = true := by
  intro l
  induction l with
  | nil => rfl
  | cons a l ih =>
    rw [List.takeWhile_cons]
    split
    · rename_i hpa
      simp [List.all_cons, hpa, ih]
    · rfl

/-- The fuel of `findallFuel` is immaterial once it is at least the length of
the scanned list: the scan consumes at least one character per step. -/
theorem findallFuel_fuel_irrelevant :
    ∀ f₁ f₂ l, l.length ≤ f₁ → l.length ≤ f₂ →
      findallFuel f₁ l = findallFuel f₂ l := by
  intro f₁
  induction f₁ with
  | zero =>
    intro f₂ l h1 h2
    have hl : l = [] := List.length_eq_zero.mp (Nat.le_zero.mp h1)
    subst hl
    cases f₂ <;> rfl
  | succ f₁ ih =>
    intro f₂ l h1 h2
    cases l with
    | nil => cases f₂ <;> rfl
    | cons c rest =>
      cases f₂ with
      | zero => simp at h2
      | succ f₂ =>
        simp only [findallFuel]
        cases hm : matchHttpAt (c :: rest) with
        | none =>
          dsimp only
          simp only [List.length_cons] at h1 h2
          exact ih f₂ rest (by omega) (by omega)
        | some p =>
          obtain ⟨m, rest₂⟩ := p
          dsimp only
          have hlt := matchHttpAt_rest_lt hm
          simp only [List.length_cons] at h1 h2 hlt
          rw [ih f₂ rest₂ (by omega) (by omega)]

/-- Every match emitted by the scan starts with `http://` or `https://` and
consists only of characters matched by `[^\s)\]]`. -/
theorem findallFuel_shape :
    ∀ fuel l m, m ∈ findallFuel fuel l →
      startsWithHttp m = true ∧ m.all urlCharOk = true := by
  intro fuel
  induction fuel with
  | zero =>
    intro l m hm
    simp [findallFuel] at hm
  | succ fuel ih =>
    intro l m hm
    cases l with
    | nil => simp [findallFuel] at hm
    | cons c rest =>
      rw [findallFuel] at hm
      cases hmt : matchHttpAt (c :: rest) with
      | none =>
        rw [hmt] at hm
        dsimp only at hm
        exact ih rest m hm
      | some p =>
        obtain ⟨mt, rest₂⟩ := p
        rw [hmt] at hm
        dsimp only at hm
        rcases List.mem_cons.mp hm with rfl | hm₂
        · rcases matchHttpAt_cases hmt with ⟨body, hne, hbody, hmeq, hrest⟩ |
            ⟨body, hne, hbody, hmeq, hrest⟩
          · subst hmeq
            constructor
            · have ht : (httpsPre ++ body).take 8 = httpsPre := List.take_left' rfl
              simp [startsWithHttp, ht]
            · rw [List.all_append]
              have hb : body.all urlCharOk = true := hbody ▸ takeWhile_all _ _
              rw [hb]
              rfl
          · subst hmeq
            constructor
            · have ht : (httpPre ++ body).take 7 = httpPre := List.take_left' rfl
              simp [startsWithHttp, ht]
            · rw [List.all_append]
              have hb : body.all urlCharOk = true := hbody ▸ takeWhile_all _ _
              rw [hb]
              rfl
        · exact ih rest₂ m hm₂

/-! ### The claims -/

/-- C1: over a non-empty list of unique extracted addresses, every completed
probe (faulting tasks included) lands in exactly one tally bucket: in any
completion order, good + bad + error equals the number of addresses at the
end, and at every intermediate point the bucket total equals the number of
results consumed so far. -/
theorem run_tally_invariant (urls : List String) (timeout : Nat)
    (net : String → Nat → NetBehavior) (rs : List (Except String Outcome))
    (hne : urls ≠ []) (hnd : urls.Nodup)
    (hperm : rs.Perm (probe_all urls timeout net)) :
    ((run_summary rs).good + (run_summary rs).bad + (run_summary rs).error
       = urls.length) ∧
    ∀ k, ((rs.take k).foldl consume_result ⟨0, 0, 0⟩).good +
           ((rs.take k).foldl consume_result ⟨0, 0, 0⟩).bad +
           ((rs.take k).foldl consume_result ⟨0, 0, 0⟩).error
         = (rs.take k).length := by
  have hlen : rs.length = urls.length := by
    rw [hperm.length_eq]
    simp [probe_all]
  constructor
  · have h := foldl_consume_total rs ⟨0, 0, 0⟩
    simp only [Summary.total] at h
    simpa [run_summary, hlen] using h
  · intro k
    have h := foldl_consume_total (rs.take k) ⟨0, 0, 0⟩
    simp only [Summary.total] at h
    simpa using h

/-- Witness for C1: one address whose task faults still yields a total of 1. -/
theorem run_tally_invariant_witness :
    (run_summary (probe_all ["http://a"] 1 fun _ _ => NetBehavior.fault "boom")).good +
    (run_summary (probe_all ["http://a"] 1 fun _ _ => NetBehavior.fault "boom")).bad +
    (run_summary (probe_all ["http://a"] 1 fun _ _ => NetBehavior.fault "boom")).error = 1 :=
  (run_tally_invariant ["http://a"] 1 (fun _ _ => NetBehavior.fault "boom") _
    (by simp) (by simp) (List.Perm.refl _)).1

/-- C2 counterexample: on an exception outside `requests.Timeout` and
`requests.RequestException` (modelled by `NetBehavior.fault`),
`check_url_status` does not return an Outcome — the exception escapes to its
caller. -/
theorem check_url_status_fault_raises :
    check_url_status "http://a" 1 (NetBehavior.fault "boom") = Except.error "boom" := rfl

/-- C2 amended: for every url and positive timeout, `check_url_status`
returns an `(address, code, reason)` Outcome for every network behavior in
which `requests.head` returns or raises a `requests` exception (response,
timeout, or transport failure); only a fault outside the `requests`
exception hierarchy escapes to the caller. -/
theorem check_total_on_requests_failures (url : String) (timeout : Nat)
    (net : NetBehavior) (ht : 0 < timeout)
    (hnf : ∀ msg, net ≠ NetBehavior.fault msg) :
    returnsOutcomeFor url (check_url_status url timeout net) = true := by
  cases net with
  | resp code reason => simp [check_url_status, returnsOutcomeFor]
  | timeout => simp [check_url_status, returnsOutcomeFor]
  | reqError msg => simp [check_url_status, returnsOutcomeFor]
  | fault msg => exact absurd rfl (hnf msg)

/-- Witness for the amended C2. -/
theorem check_total_on_requests_failures_witness :
    returnsOutcomeFor "http://a" (check_url_status "http://a" 1 NetBehavior.timeout) = true :=
  check_total_on_requests_failures "http://a" 1 NetBehavior.timeout (by decide)
    (fun msg h => NetBehavior.noConfusion h)

/-- C3: each consumed Outcome performs exactly one bucket increment chosen by
its classification — a 2xx code increments good, the 408 timeout sentinel or
any positive non-2xx code increments bad, and code 0 (connection error)
increments error. -/
theorem consume_classification (s : Summary) (u : String) (code : Nat) (reason : String) :
    (200 ≤ code ∧ code < 300 →
      consume_result s (Except.ok (u, code, reason)) = ⟨s.good + 1, s.bad, s.error⟩) ∧
    (code = 408 ∨ (0 < code ∧ ¬(200 ≤ code ∧ code < 300)) →
      consume_result s (Except.ok (u, code, reason)) = ⟨s.good, s.bad + 1, s.error⟩) ∧
    (code = 0 →
      consume_result s (Except.ok (u, code, reason)) = ⟨s.good, s.bad, s.error + 1⟩) := by
  refine ⟨?_, ?_, ?_⟩
  · intro h
    simp [consume_result, h]
  · intro h
    have h1 : ¬(200 ≤ code ∧ code < 300) := by
      rcases h with rfl | ⟨hpos, hno⟩
      · omega
      · exact hno
    have h2 : 0 < code := by
      rcases h with rfl | ⟨hpos, hno⟩
      · omega
      · exact hpos
    simp only [consume_result]
    rw [if_neg h1, if_pos h2]
  · intro h
    subst h
    simp [consume_result]

/-- Witness for C3: the 408 timeout sentinel increments the bad bucket. -/
theorem consume_classification_witness :
    consume_result ⟨0, 0, 0⟩ (Except.ok ("http://a", 408, "Timeout")) = ⟨0, 1, 0⟩ :=
  (consume_classification ⟨0, 0, 0⟩ "http://a" 408 "Timeout").2.1 (Or.inl rfl)

/-- C4: the parsed workers value is not validated — zero (likewise any
negative value) flows into `ThreadPoolExecutor`, which raises an uncaught
`ValueError` after extraction, instead of being rejected before the dispatch
engine is invoked. -/
theorem workers_zero_reaches_executor :
    runChecker (Except.ok "x http://a") 0 1 (fun _ _ => NetBehavior.resp 200 "OK") =
      RunOutcome.crashed "max_workers must be greater than 0" := rfl

/-- C5: an unreadable input document makes the run exit non-zero with the
error message, before any probing: no task result is ever delivered. -/
theorem read_failure_exits_nonzero (msg : String) (workers : Int) (timeout : Nat)
    (net : String → Nat → NetBehavior) :
    runChecker (Except.error msg) workers timeout net = RunOutcome.readError msg ∧
    exitCode (runChecker (Except.error msg) workers timeout net) ≠ 0 ∧
    deliveredResults (runChecker (Except.error msg) workers timeout net) = [] :=
  ⟨rfl, by simp [runChecker, exitCode], rfl⟩

/-- C6: a readable document with zero extracted addresses makes the run
report no URLs and exit zero, with no probe performed and no result
delivered to the sink. -/
theorem no_urls_exits_zero (content : String) (workers : Int) (timeout : Nat)
    (net : String → Nat → NetBehavior) (h : extract_urls content = []) :
    runChecker (Except.ok content) workers timeout net = RunOutcome.noUrls ∧
    exitCode (runChecker (Except.ok content) workers timeout net) = 0 ∧
    deliveredResults (runChecker (Except.ok content) workers timeout net) = [] := by
  have h1 : runChecker (Except.ok content) workers timeout net = RunOutcome.noUrls := by
    simp [runChecker, h]
  refine ⟨h1, ?_, ?_⟩
  · rw [h1]
    rfl
  · rw [h1]
    rfl

/-- Witness for C6: a document with no `http` substring. -/
theorem no_urls_exits_zero_witness :
    exitCode (runChecker (Except.ok "ola") 10 1 fun _ _ => NetBehavior.timeout) = 0 :=
  (no_urls_exits_zero "ola" 10 1 (fun _ _ => NetBehavior.timeout) (by decide)).2.1

/-- C7: a timed-out probe returns the sentinel 408 with reason "Timeout",
for every address and positive timeout. -/
theorem timeout_outcome (url : String) (timeout : Nat) (ht : 0 < timeout) :
    check_url_status url timeout NetBehavior.timeout =
      Except.ok (url, 408, "Timeout") := rfl

/-- Witness for C7. -/
theorem timeout_outcome_witness :
    check_url_status "http://a" 1 NetBehavior.timeout =
      Except.ok ("http://a", 408, "Timeout") :=
  timeout_outcome "http://a" 1 (by decide)

/-- C8: a transport-level failure returns numeric code 0 and a reason built
from the failure description truncated to at most 50 characters. -/
theorem connection_error_outcome (url : String) (timeout : Nat) (msg : String)
    (ht : 0 < timeout) :
    check_url_status url timeout (NetBehavior.reqError msg) =
      Except.ok (url, 0, "Connection Error: " ++ String.mk (msg.data.take 50) ++ "...") ∧
    (String.mk (msg.data.take 50)).length ≤ 50 :=
  ⟨rfl, List.length_take_le 50 msg.data⟩

/-- Witness for C8. -/
theorem connection_error_outcome_witness :
    check_url_status "http://a" 1 (NetBehavior.reqError "boom") =
      Except.ok ("http://a", 0, "Connection Error: " ++ String.mk ("boom".data.take 50) ++ "...") ∧
    (String.mk ("boom".data.take 50)).length ≤ 50 :=
  connection_error_outcome "http://a" 1 "boom" (by decide)

/-- C9: extraction is a pure function — the same content always yields the
same list — and its output has no duplicates and is in a stable,
deterministic (strictly ascending) order. -/
theorem extract_idempotent_dedup (content : String) :
    extract_urls content = extract_urls content ∧
    (extract_urls content).Nodup ∧
    (extract_urls content).Pairwise (· < ·) :=
  ⟨rfl, (pairwise_dedupSort _).imp (fun h => ne_of_lt h), pairwise_dedupSort _⟩

/-- C10: the extracted list is strictly ascending in lexicographic string
order, and every element starts with `http://` or `https://` and contains no
whitespace, `)` or `]` character. -/
theorem extract_sorted_shape (content : String) :
    (extract_urls content).Pairwise (· < ·) ∧
    ∀ u ∈ extract_urls content,
      startsWithHttp u.data = true ∧ u.data.all urlCharOk = true := by
  refine ⟨pairwise_dedupSort _, ?_⟩
  intro u hu
  have hmem := mem_dedupSort u _ hu
  rw [List.mem_map] at hmem
  obtain ⟨m, hm, rfl⟩ := hmem
  exact findallFuel_shape _ _ m hm

/-- Witness for C10. -/
theorem extract_sorted_shape_witness :
    startsWithHttp (String.data "http://a") = true ∧
    (String.data "http://a").all urlCharOk = true :=
  (extract_sorted_shape "x http://a b").2 "http://a" (by decide)
